import Mathlib

/-!
Verification of the Source Synchronization & Ranking Engine of the
price-comparison server (`server/app/services/comparison_service.py` and
`server/app/services/scraping_service.py`).

The Python code is shallowly embedded:
* SQLAlchemy rows become Lean structures mirroring the declared columns
  (`server/app/models/*.py`); nullable columns become `Option` fields.
* Python `float`/`Decimal` arithmetic is modelled over `ℚ` with the same
  operations; `round(x, n)` is modelled as round-half-even at `n` decimal
  digits (`pyRound`), matching Python's documented rounding mode.
* Python's truthiness in `x or y` (`None` and `0` are falsy) is `pyOr`.
* `list.sort` is a stable sort; it is modelled by `List.insertionSort`,
  which is stable for the programmed comparison.
* the database session is a `Catalog` value; `db.commit()` points are
  materialised as a list of committed snapshots (`ReconcileOut.commits`).
* `availability_status` and `delivery_time` are not columns of
  `ProductListing` (see `models/product_listings.py`). Plain attribute
  assignments to them (lines 152, 174) are transient and never persisted,
  but passing them as constructor keyword arguments (lines 154–167) makes
  SQLAlchemy's declarative constructor raise `TypeError`: the create path
  aborts after the product commit, modelled as `ReconcileResult.raised`.
-/

/-- Python `x or d` for an optional numeric `x`: `None` and `0` are falsy. -/
def pyOr (x : Option ℚ) (d : ℚ) : ℚ :=
  match x with
  | none => d
  | some v => if v = 0 then d else v

/-- Python `x or d` for an optional string `x`: `None` and `""` are falsy. -/
def pyOrStr (x : Option String) (d : String) : String :=
  match x with
  | none => d
  | some s => if s = "" then d else s

/-- Round-half-even to an integer, the rounding mode of Python's `round`. -/
def roundHalfEven (q : ℚ) : ℤ :=
  if q - ⌊q⌋ < 1/2 then ⌊q⌋
  else if (1:ℚ)/2 < q - ⌊q⌋ then ⌊q⌋ + 1
  else if ⌊q⌋ % 2 = 0 then ⌊q⌋ else ⌊q⌋ + 1

/-- Python `round(q, n)`: round-half-even at `n` decimal digits. -/
def pyRound (n : ℕ) (q : ℚ) : ℚ :=
  (roundHalfEven (q * 10 ^ n) : ℚ) / 10 ^ n

/-- Whether `pre` is a leading segment of `l` (on character lists). -/
def charsStartWith : List Char → List Char → Bool
  | [], _ => true
  | _ :: _, [] => false
  | c :: cs, d :: ds => c == d && charsStartWith cs ds

/-- Whether `needle` occurs contiguously inside `hay` (on character lists). -/
def charsContain (needle : List Char) : List Char → Bool
  | [] => needle.isEmpty
  | d :: ds => charsStartWith needle (d :: ds) || charsContain needle ds

/-- Python `needle in hay` on strings: contiguous substring test. -/
def strContains (hay needle : String) : Bool :=
  charsContain needle.data hay.data

/-- Strict lexicographic order on strings by character code (an executable
stand-in for string comparison, used only to state the spec's tie-break). -/
def strLt (a b : String) : Bool :=
  go a.data b.data
where
  go : List Char → List Char → Bool
    | [], [] => false
    | [], _ :: _ => true
    | _ :: _, [] => false
    | c :: cs, d :: ds => c.val < d.val || (c == d && go cs ds)

/-- Python `str.lower()`, character-wise (ASCII case folding; executable,
unlike `String.toLower`, under kernel reduction). -/
def pyLower (s : String) : String :=
  ⟨s.data.map Char.toLower⟩

/-- Python `min(xs)` when `xs` is nonempty, a default otherwise. -/
def minOr : List ℚ → ℚ → ℚ
  | [], d => d
  | x :: xs, _ => xs.foldl min x

/-- Python `max(xs)` when `xs` is nonempty, a default otherwise. -/
def maxOr : List ℚ → ℚ → ℚ
  | [], d => d
  | x :: xs, _ => xs.foldl max x

/-! ## Ranking engine (`comparison_service.rank_listings`) -/

/-- The fields of a `ProductListing` row that `rank_listings` reads.
`price` is kept optional because the code guards `l.price is not None`;
`platformName` is the related platform's name, used only to state the
spec's tie-break claim. -/
structure RListing where
  price : Option ℚ
  discount_percentage : Option ℚ
  rating : Option ℚ
  platformName : String
  deriving DecidableEq

/-- The normalization statistics collected in lines 28–35 of
`comparison_service.py`. -/
structure RankStats where
  min_price : ℚ
  max_price : ℚ
  max_discount : ℚ
  max_rating : ℚ
  deriving DecidableEq

/-- `eps = 1e-8`, the division-by-zero guard of `rank_listings`. -/
def eps : ℚ := 1 / 10 ^ 8

/-- Lines 28–35: min/max of the present prices, discounts and ratings,
with defaults `0`/`1`, `100` and `5` when none are present. -/
def rankStats (listings : List RListing) : RankStats :=
  let prices := listings.filterMap (·.price)
  let discounts := listings.filterMap (·.discount_percentage)
  let ratings := listings.filterMap (·.rating)
  { min_price := minOr prices 0
    max_price := maxOr prices 1
    max_discount := maxOr discounts 100
    max_rating := maxOr ratings 5 }

/-- Lines 42–43: `min((l.discount_percentage or 0) / (max_discount + eps), 1)`. -/
def normDiscount (s : RankStats) (l : RListing) : ℚ :=
  min (pyOr l.discount_percentage 0 / (s.max_discount + eps)) 1

/-- Lines 46–47: `1 - min(((l.price or max_price) - min_price) / (max_price - min_price + eps), 1)`. -/
def normPrice (s : RankStats) (l : RListing) : ℚ :=
  1 - min ((pyOr l.price s.max_price - s.min_price) / (s.max_price - s.min_price + eps)) 1

/-- Lines 50–51: `min((l.rating or 0) / (max_rating + eps), 1)`. -/
def normRating (s : RankStats) (l : RListing) : ℚ :=
  min (pyOr l.rating 0 / (s.max_rating + eps)) 1

/-- Line 54: the unrounded composite score. -/
def rawScore (s : RankStats) (l : RListing) : ℚ :=
  0.4 * normDiscount s l + 0.4 * normPrice s l + 0.2 * normRating s l

/-- One entry of the list built in lines 56–62. -/
structure Scored where
  listing : RListing
  score : ℚ
  norm_discount : ℚ
  norm_price : ℚ
  norm_rating : ℚ
  deriving DecidableEq

/-- Lines 56–62: the scored dict for one listing (score rounded to 4
digits, the sub-scores to 2). -/
def scoreListing (s : RankStats) (l : RListing) : Scored :=
  { listing := l
    score := pyRound 4 (rawScore s l)
    norm_discount := pyRound 2 (normDiscount s l)
    norm_price := pyRound 2 (normPrice s l)
    norm_rating := pyRound 2 (normRating s l) }

/-- The comparison used by line 65 (`sort(key=score, reverse=True)`):
`a` may stay before `b` iff `a`'s score is at least `b`'s. -/
def scoreGE (a b : Scored) : Prop := b.score ≤ a.score

instance : DecidableRel scoreGE :=
  fun a b => inferInstanceAs (Decidable (b.score ≤ a.score))

instance : IsTotal Scored scoreGE := ⟨fun a b => le_total b.score a.score⟩

instance : IsTrans Scored scoreGE := ⟨fun _ _ _ h1 h2 => le_trans h2 h1⟩

/-- `comparison_service.rank_listings` (lines 24–67): score every listing
against the set statistics and stable-sort by score, descending. -/
def rank_listings (listings : List RListing) : List Scored :=
  if listings.isEmpty then []
  else List.insertionSort scoreGE (listings.map (scoreListing (rankStats listings)))

/-! ## The ranking claims' spec-side formulas -/

/-- C1's formula as literally stated: the actual field value is used
whenever present (`Option.getD`), only a missing value is substituted,
and no rounding is applied. -/
def claimNormPrice (s : RankStats) (l : RListing) : ℚ :=
  1 - min ((l.price.getD s.max_price - s.min_price) / (s.max_price - s.min_price + eps)) 1

/-- C1's composite score as literally stated (see `claimNormPrice`). -/
def claimScore (s : RankStats) (l : RListing) : ℚ :=
  0.4 * min (l.discount_percentage.getD 0 / (s.max_discount + eps)) 1
    + 0.4 * claimNormPrice s l
    + 0.2 * min (l.rating.getD 0 / (s.max_rating + eps)) 1

/-- The amended C1 formula: as `claimScore`, but a value of `0` is
substituted exactly like a missing one (Python truthiness). -/
def claimScoreFalsy (s : RankStats) (l : RListing) : ℚ :=
  0.4 * min (pyOr l.discount_percentage 0 / (s.max_discount + eps)) 1
    + 0.4 * (1 - min ((pyOr l.price s.max_price - s.min_price) / (s.max_price - s.min_price + eps)) 1)
    + 0.2 * min (pyOr l.rating 0 / (s.max_rating + eps)) 1

/-! ## Catalog store (`app/models/*.py`) -/

/-- A `platforms` row (`models/platform.py`). -/
structure DBPlatform where
  id : ℕ
  name : String
  base_url : String
  deriving DecidableEq

/-- A `products` row (`models/product.py`). -/
structure DBProduct where
  id : ℕ
  name : String
  brand : Option String
  category : Option String
  description : Option String
  image_url : Option String
  deriving DecidableEq

/-- A `product_listings` row (`models/product_listings.py`).
Timestamps are seconds; `product_url` is declared `NOT NULL` but the sync
path stores the scraped value as-is, so it is kept optional here (the
model does not enforce database constraints). -/
structure DBListing where
  id : ℕ
  product_id : ℕ
  platform_id : ℕ
  product_url : Option String
  platform_product_id : Option String
  price : ℚ
  original_price : Option ℚ
  discount_percentage : Option ℚ
  rating : Option ℚ
  rating_count : Option ℕ
  last_scraped_at : ℤ
  deriving DecidableEq

/-- A `price_history` row (`models/price_history.py`). -/
structure PriceHistoryRow where
  id : ℕ
  product_listing_id : ℕ
  price : ℚ
  recorded_at : ℤ
  deriving DecidableEq

/-- The persisted catalog; `nextId` models the id sequence. Row lists are
kept in insertion order (`.first()` takes the first match). -/
structure Catalog where
  platforms : List DBPlatform
  products : List DBProduct
  listings : List DBListing
  history : List PriceHistoryRow
  nextId : ℕ
  deriving DecidableEq

/-- The fields of `ScrapedProductData` (`scrapers/base.py`) that
`search_and_sync_products` reads. -/
structure ScrapedRecord where
  name : Option String
  brand : Option String
  category : Option String
  description : Option String
  image_url : Option String
  platform_product_id : Option String
  platform_url : Option String
  current_price : Option ℚ
  original_price : Option ℚ
  discount_percentage : Option ℚ
  rating : Option ℚ
  seller_rating : Option ℚ
  rating_count : Option ℕ
  deriving DecidableEq

/-- Lines 150/162 of `scraping_service.py`:
`float(item.rating) if item.rating is not None else (float(item.seller_rating) if item.seller_rating is not None else None)`. -/
def resolveRating (r : ScrapedRecord) : Option ℚ :=
  match r.rating with
  | some v => some v
  | none => r.seller_rating

/-- Lines 104–106: platform name from substring checks on the lowered URL
(`"Amazon" if "amazon" in url else "Flipkart"`, then overridden to
`"Flipkart"` when the URL contains `"flipkart"`). -/
def resolvePlatformName (r : ScrapedRecord) : String :=
  let low := pyLower (pyOrStr r.platform_url "")
  let name := if strContains low "amazon" then "Amazon" else "Flipkart"
  if strContains low "flipkart" then "Flipkart" else name

/-- Line 111: `item.platform_url.split("/")[0] if item.platform_url else ""`. -/
def platformBaseUrl (r : ScrapedRecord) : String :=
  match r.platform_url with
  | none => ""
  | some u => if u = "" then "" else ⟨u.data.takeWhile (fun c => c ≠ '/')⟩

/-- Lines 108–114: look the platform up by name, creating and committing
it when absent. Returns the catalog after this step, the platform row and
the commit snapshots produced. -/
def resolvePlatform (cat : Catalog) (r : ScrapedRecord) : Catalog × DBPlatform × List Catalog :=
  match cat.platforms.find? (fun p => p.name == resolvePlatformName r) with
  | some p => (cat, p, [])
  | none =>
    let p : DBPlatform := { id := cat.nextId, name := resolvePlatformName r, base_url := platformBaseUrl r }
    let cat' : Catalog := { cat with platforms := cat.platforms ++ [p], nextId := cat.nextId + 1 }
    (cat', p, [cat'])

/-- Lines 123–126: the natural-key lookup
`filter(platform_product_id == item.platform_product_id, platform_id == platform.id).first()`. -/
def findExistingListing (cat : Catalog) (platformId : ℕ) (r : ScrapedRecord) : Option DBListing :=
  cat.listings.find? (fun l =>
    l.platform_product_id == r.platform_product_id && l.platform_id == platformId)

/-- Lines 146–152: the update branch's field assignments (note line 147
sets `price = item.current_price or 0`). -/
def updateBranch (l0 : DBListing) (r : ScrapedRecord) : DBListing :=
  { l0 with
    price := pyOr r.current_price 0
    original_price := r.original_price
    discount_percentage := r.discount_percentage
    rating := resolveRating r
    rating_count := r.rating_count }

/-- Lines 170–175, applied on both branches before the listing commit:
`price = item.current_price or listing.price`, refreshed metadata and
timestamp. -/
def commonAssign (l : DBListing) (r : ScrapedRecord) (now : ℤ) : DBListing :=
  { l with
    price := pyOr r.current_price l.price
    original_price := r.original_price
    discount_percentage := r.discount_percentage
    last_scraped_at := now }

/-- Lines 133–139: the new product of the create branch
(`name=item.name or "Unknown Product"`). -/
def newProductFrom (nid : ℕ) (r : ScrapedRecord) : DBProduct :=
  { id := nid
    name := pyOrStr r.name "Unknown Product"
    brand := r.brand
    category := r.category
    description := r.description
    image_url := r.image_url }

/-- Result of reconciling one scraped record: every committed snapshot in
order, the final state (the last snapshot) and the listing the record was
reconciled into. -/
structure ReconcileOut where
  commits : List Catalog
  final : Catalog
  listing : DBListing
  deriving DecidableEq

/-- Outcome of reconciling one record. `ok` carries the committed
snapshots, the final state and the reconciled listing; `raised` is the
`TypeError` thrown by the `ProductListing` constructor on the create
path, carrying the snapshots committed before the raise and the last
committed — still visible — state. -/
inductive ReconcileResult where
  | ok (out : ReconcileOut)
  | raised (commits : List Catalog) (state : Catalog)
  deriving DecidableEq

/-- The update path (lines 145–152 then 170–188): mutate the matched
listing's fields, commit, append one `PriceHistory` point, commit. -/
def reconcileUpdate (cat1 : Catalog) (r : ScrapedRecord) (now : ℤ) (l0 : DBListing)
    (commits0 : List Catalog) : ReconcileOut :=
  let l2 := commonAssign (updateBranch l0 r) r now
  let cat2 : Catalog :=
    { cat1 with listings := cat1.listings.map (fun l => if l.id == l0.id then l2 else l) }
  let h : PriceHistoryRow :=
    { id := cat2.nextId, product_listing_id := l2.id, price := l2.price, recorded_at := now }
  let cat3 : Catalog := { cat2 with history := cat2.history ++ [h], nextId := cat2.nextId + 1 }
  { commits := commits0 ++ [cat2, cat3], final := cat3, listing := l2 }

/-- The create path (lines 131–143 then 153–167): create and commit the
product; the `ProductListing(...)` call then passes `availability_status`
and `delivery_time` keyword arguments that are not mapped attributes of
the model, so SQLAlchemy's declarative constructor raises `TypeError`
before any listing exists. The loop has no handler: the call aborts with
only the product committed, and lines 168–188 are never reached. -/
def reconcileCreate (cat1 : Catalog) (r : ScrapedRecord) (commits0 : List Catalog) :
    ReconcileResult :=
  let prod := newProductFrom cat1.nextId r
  let cat2 : Catalog := { cat1 with products := cat1.products ++ [prod], nextId := cat1.nextId + 1 }
  .raised (commits0 ++ [cat2]) cat2

/-- Lines 102–188 of `scraping_service.py` for one scraped record:
resolve the platform, look the listing up by natural key, then take the
update or the create path. `db.commit()` snapshots are collected in
order. -/
def reconcileStep (cat : Catalog) (r : ScrapedRecord) (now : ℤ) : ReconcileResult :=
  let rp := resolvePlatform cat r
  match findExistingListing rp.1 rp.2.1.id r with
  | some l0 => .ok (reconcileUpdate rp.1 r now l0 rp.2.2)
  | none => reconcileCreate rp.1 r rp.2.2

/-- The committed catalog state visible after reconciling one record,
whether the call returned or raised. -/
def reconcileRecord (cat : Catalog) (r : ScrapedRecord) (now : ℤ) : Catalog :=
  match reconcileStep cat r now with
  | .ok out => out.final
  | .raised _ st => st

/-- The committed snapshots produced while reconciling one record. -/
def reconcileRecordCommits (cat : Catalog) (r : ScrapedRecord) (now : ℤ) : List Catalog :=
  match reconcileStep cat r now with
  | .ok out => out.commits
  | .raised cs _ => cs

/-- How many listings of `cat` carry the natural key (`platformId`,
`ppid`). -/
def countKey (cat : Catalog) (platformId : ℕ) (ppid : Option String) : ℕ :=
  cat.listings.countP (fun l => l.platform_product_id == ppid && l.platform_id == platformId)

/-! ## Freshness policy and sync orchestrator
(`scraping_service.search_and_sync_products`, lines 19–198) -/

/-- The freshness window: 24 hours, in seconds (line 43,
`timedelta(hours=24)`). -/
def freshnessWindow : ℤ := 86400

/-- SQL `name ILIKE '%query%'` (line 31): case-insensitive substring. -/
def ilikeMatch (name query : String) : Bool :=
  strContains (pyLower name) (pyLower query)

/-- Line 31: the products whose name matches the query. -/
def existingProducts (cat : Catalog) (query : String) : List DBProduct :=
  cat.products.filter (fun p => ilikeMatch p.name query)

/-- Lines 46–49: the listings of one product scraped within the window
(`last_scraped_at >= cutoff_time` with `cutoff_time = now - 24h`). -/
def freshListingsOf (cat : Catalog) (p : DBProduct) (now : ℤ) : List DBListing :=
  cat.listings.filter (fun l =>
    l.product_id == p.id && decide (now - freshnessWindow ≤ l.last_scraped_at))

/-- Lines 41–52: all fresh listings over the matched products, in loop
order. -/
def freshListings (cat : Catalog) (query : String) (now : ℤ) : List DBListing :=
  ((existingProducts cat query).map (fun p => freshListingsOf cat p now)).flatten

/-- Line 54/56: `amazon_platform and l.platform_id == amazon_platform.id`. -/
def matchesPlat (platOpt : Option ℕ) (l : DBListing) : Bool :=
  match platOpt with
  | some pid => l.platform_id == pid
  | none => false

/-- Lines 53–57: one iteration of the platform tally (`if`/`elif`). -/
def tallyStep (amz fk : Option ℕ) (acc : ℕ × ℕ) (l : DBListing) : ℕ × ℕ :=
  if matchesPlat amz l then (acc.1 + 1, acc.2)
  else if matchesPlat fk l then (acc.1, acc.2 + 1)
  else acc

/-- Lines 35–36: platform rows are resolved by name. -/
def platformIdByName (cat : Catalog) (name : String) : Option ℕ :=
  (cat.platforms.find? (fun p => p.name == name)).map (·.id)

/-- Lines 38–57: `(amazon_fresh_count, flipkart_fresh_count)`. -/
def freshCounts (cat : Catalog) (query : String) (now : ℤ) : ℕ × ℕ :=
  (freshListings cat query now).foldl
    (tallyStep (platformIdByName cat "Amazon") (platformIdByName cat "Flipkart")) (0, 0)

/-- Line 59: `needs_amazon = amazon_fresh_count == 0`. -/
def needsAmazon (cat : Catalog) (query : String) (now : ℤ) : Bool :=
  (freshCounts cat query now).1 == 0

/-- Line 60: `needs_flipkart = flipkart_fresh_count == 0`. -/
def needsFlipkart (cat : Catalog) (query : String) (now : ℤ) : Bool :=
  (freshCounts cat query now).2 == 0

/-- Line 66: `{l.product for l in listings}` — the distinct products the
given listings point to. -/
def productsOfListings (cat : Catalog) (ls : List DBListing) : List DBProduct :=
  ((ls.map (·.product_id)).dedup).filterMap (fun i => cat.products.find? (fun p => p.id == i))

/-- A scraper pipeline outcome: a list of records, or a raised exception
(caught and logged by lines 80/89, contributing no records). -/
def scrapeYield (outcome : Except Unit (List ScrapedRecord)) : List ScrapedRecord :=
  match outcome with
  | .ok rs => rs
  | .error _ => []

/-- Lines 100–188: reconcile every scraped record in order, collecting
`new_listings`; a raise aborts the loop (and the whole call) with the
state committed so far. -/
def syncLoop (cat : Catalog) (now : ℤ) :
    List ScrapedRecord → Except Catalog (Catalog × List DBListing)
  | [] => .ok (cat, [])
  | r :: rs =>
    match reconcileStep cat r now with
    | .raised _ st => .error st
    | .ok out =>
      match syncLoop out.final now rs with
      | .error st => .error st
      | .ok (c, ls) => .ok (c, out.listing :: ls)

/-- `scraping_service.search_and_sync_products` (lines 19–198). The two
scraper pipelines are inputs (`Except` outcomes, used only when their
platform is judged stale); the `.ok` result is the catalog after the
call and the returned product list, while `.error` is the `TypeError`
from the create path propagating to the caller, carrying the committed
state. Python's set iteration order is modelled as first-encountered
order. -/
def searchAndSync (cat : Catalog) (query : String) (now : ℤ)
    (amazonOutcome flipkartOutcome : Except Unit (List ScrapedRecord)) :
    Except Catalog (Catalog × List DBProduct) :=
  let existing := existingProducts cat query
  let needsA := needsAmazon cat query now
  let needsF := needsFlipkart cat query now
  if ¬needsA ∧ ¬needsF then
    .ok (cat, productsOfListings cat (freshListings cat query now))
  else
    let scraped :=
      (if needsA then scrapeYield amazonOutcome else [])
        ++ (if needsF then scrapeYield flipkartOutcome else [])
    if scraped.isEmpty then
      .ok (cat, if ¬existing.isEmpty then existing else [])
    else
      match syncLoop cat now scraped with
      | .error st => .error st
      | .ok (c, ls) =>
        let newProducts := productsOfListings c ls
        .ok (c, newProducts ++ existing.filter (fun p => ¬newProducts.contains p))

/-! ## Helper lemmas -/

lemma rank_listings_single (a : RListing) :
    rank_listings [a] = [scoreListing (rankStats [a]) a] := by
  simp [rank_listings, List.insertionSort, List.orderedInsert]

lemma rank_listings_pair (a b : RListing) :
    rank_listings [a, b] =
      if (scoreListing (rankStats [a, b]) b).score ≤ (scoreListing (rankStats [a, b]) a).score
      then [scoreListing (rankStats [a, b]) a, scoreListing (rankStats [a, b]) b]
      else [scoreListing (rankStats [a, b]) b, scoreListing (rankStats [a, b]) a] := by
  simp [rank_listings, List.insertionSort, List.orderedInsert, scoreGE]

lemma mem_rank_listings {L : List RListing} {s : Scored} (h : s ∈ rank_listings L) :
    ∃ l ∈ L, s = scoreListing (rankStats L) l := by
  unfold rank_listings at h
  split at h
  · cases h
  · have hm := (List.perm_insertionSort scoreGE _).mem_iff.mp h
    obtain ⟨l, hl, he⟩ := List.mem_map.mp hm
    exact ⟨l, hl, he.symm⟩

lemma foldl_min_le (xs : List ℚ) (a : ℚ) : xs.foldl min a ≤ a := by
  induction xs generalizing a with
  | nil => simp
  | cons x xs ih => exact le_trans (ih (min a x)) (min_le_left a x)

lemma foldl_min_le_mem {v : ℚ} (xs : List ℚ) (a : ℚ) (h : v ∈ xs) : xs.foldl min a ≤ v := by
  induction xs generalizing a with
  | nil => cases h
  | cons x xs ih =>
    rcases List.mem_cons.mp h with rfl | h'
    · exact le_trans (foldl_min_le xs (min a v)) (min_le_right a v)
    · exact ih (min a x) h'

lemma le_foldl_max (xs : List ℚ) (a : ℚ) : a ≤ xs.foldl max a := by
  induction xs generalizing a with
  | nil => simp
  | cons x xs ih => exact le_trans (le_max_left a x) (ih (max a x))

lemma mem_le_foldl_max {v : ℚ} (xs : List ℚ) (a : ℚ) (h : v ∈ xs) : v ≤ xs.foldl max a := by
  induction xs generalizing a with
  | nil => cases h
  | cons x xs ih =>
    rcases List.mem_cons.mp h with rfl | h'
    · exact le_trans (le_max_right a v) (le_foldl_max xs (max a v))
    · exact ih (max a x) h'

lemma minOr_le_of_mem {v : ℚ} {l : List ℚ} (d : ℚ) (h : v ∈ l) : minOr l d ≤ v := by
  cases l with
  | nil => cases h
  | cons x xs =>
    rcases List.mem_cons.mp h with rfl | h'
    · exact foldl_min_le xs v
    · exact foldl_min_le_mem xs x h'

lemma le_maxOr_of_mem {v : ℚ} {l : List ℚ} (d : ℚ) (h : v ∈ l) : v ≤ maxOr l d := by
  cases l with
  | nil => cases h
  | cons x xs =>
    rcases List.mem_cons.mp h with rfl | h'
    · exact le_foldl_max xs v
    · exact mem_le_foldl_max xs x h'

lemma minOr_le_maxOr (l : List ℚ) {d e : ℚ} (hde : d ≤ e) : minOr l d ≤ maxOr l e := by
  cases l with
  | nil => exact hde
  | cons x xs => exact le_trans (foldl_min_le xs x) (le_foldl_max xs x)

lemma maxOr_nonneg {l : List ℚ} {d : ℚ} (hl : ∀ v ∈ l, 0 ≤ v) (hd : 0 ≤ d) :
    0 ≤ maxOr l d := by
  cases l with
  | nil => exact hd
  | cons x xs => exact le_trans (hl x (List.mem_cons_self x xs)) (le_foldl_max xs x)

lemma roundHalfEven_nonneg {q : ℚ} (h : 0 ≤ q) : 0 ≤ roundHalfEven q := by
  have hf : (0:ℤ) ≤ ⌊q⌋ := Int.floor_nonneg.mpr h
  unfold roundHalfEven
  split_ifs <;> omega

lemma roundHalfEven_le {q : ℚ} {n : ℤ} (h : q ≤ n) : roundHalfEven q ≤ n := by
  have hfl : ⌊q⌋ ≤ n := by
    have := Int.floor_le_floor h
    rwa [Int.floor_intCast] at this
  have hlt : ∀ (c : ℚ), 1/2 ≤ q - ⌊q⌋ → ⌊q⌋ + 1 ≤ n := by
    intro _ hc
    have h1 : (⌊q⌋ : ℚ) < q := by linarith
    have h2 : (⌊q⌋ : ℚ) < (n : ℚ) := lt_of_lt_of_le h1 h
    exact Int.cast_lt.mp h2
  unfold roundHalfEven
  split_ifs with h1 h2 h3
  · exact hfl
  · exact hlt 0 (le_of_lt h2)
  · exact hfl
  · exact hlt 0 (le_of_not_lt h1)

lemma pyRound_nonneg {n : ℕ} {q : ℚ} (h : 0 ≤ q) : 0 ≤ pyRound n q := by
  unfold pyRound
  have h1 : (0:ℤ) ≤ roundHalfEven (q * 10 ^ n) := by
    apply roundHalfEven_nonneg
    positivity
  have h2 : (0:ℚ) ≤ (roundHalfEven (q * 10 ^ n) : ℚ) := by exact_mod_cast h1
  positivity

lemma pyRound_le_one {n : ℕ} {q : ℚ} (h : q ≤ 1) : pyRound n q ≤ 1 := by
  unfold pyRound
  have h1 : roundHalfEven (q * 10 ^ n) ≤ (10 ^ n : ℤ) := by
    apply roundHalfEven_le
    push_cast
    have hp : (0:ℚ) < 10 ^ n := by positivity
    nlinarith
  rw [div_le_one (by positivity)]
  exact_mod_cast h1

lemma eps_pos : (0:ℚ) < eps := by norm_num [eps]

lemma normDiscount_bounds {L : List RListing} {l : RListing} (hl : l ∈ L)
    (hd : ∀ l' ∈ L, ∀ v, l'.discount_percentage = some v → 0 ≤ v) :
    0 ≤ normDiscount (rankStats L) l ∧ normDiscount (rankStats L) l ≤ 1 := by
  constructor
  · apply le_min _ zero_le_one
    apply div_nonneg
    · unfold pyOr
      cases hdp : l.discount_percentage with
      | none => simp
      | some v =>
        dsimp only
        split_ifs with h0
        · simp
        · exact hd l hl v hdp
    · have hmax : 0 ≤ maxOr (L.filterMap (·.discount_percentage)) 100 := by
        apply maxOr_nonneg _ (by norm_num)
        intro v hv
        obtain ⟨l', hl', he⟩ := List.mem_filterMap.mp hv
        exact hd l' hl' v he
      have := eps_pos
      simp only [rankStats]
      linarith
  · exact min_le_right _ 1

lemma normRating_bounds {L : List RListing} {l : RListing} (hl : l ∈ L)
    (hr : ∀ l' ∈ L, ∀ v, l'.rating = some v → 0 ≤ v) :
    0 ≤ normRating (rankStats L) l ∧ normRating (rankStats L) l ≤ 1 := by
  constructor
  · apply le_min _ zero_le_one
    apply div_nonneg
    · unfold pyOr
      cases hdp : l.rating with
      | none => simp
      | some v =>
        dsimp only
        split_ifs with h0
        · simp
        · exact hr l hl v hdp
    · have hmax : 0 ≤ maxOr (L.filterMap (·.rating)) 5 := by
        apply maxOr_nonneg _ (by norm_num)
        intro v hv
        obtain ⟨l', hl', he⟩ := List.mem_filterMap.mp hv
        exact hr l' hl' v he
      have := eps_pos
      simp only [rankStats]
      linarith
  · exact min_le_right _ 1

lemma normPrice_bounds {L : List RListing} {l : RListing} (hl : l ∈ L) :
    0 ≤ normPrice (rankStats L) l ∧ normPrice (rankStats L) l ≤ 1 := by
  have hmm : minOr (L.filterMap (·.price)) 0 ≤ maxOr (L.filterMap (·.price)) 1 :=
    minOr_le_maxOr _ (by norm_num)
  have heps := eps_pos
  constructor
  · unfold normPrice
    have : min ((pyOr l.price (rankStats L).max_price - (rankStats L).min_price) /
        ((rankStats L).max_price - (rankStats L).min_price + eps)) 1 ≤ 1 := min_le_right _ 1
    linarith
  · unfold normPrice
    have hnum : 0 ≤ pyOr l.price (rankStats L).max_price - (rankStats L).min_price := by
      unfold pyOr
      cases hp : l.price with
      | none =>
        simp only [rankStats]
        linarith
      | some v =>
        dsimp only
        split_ifs with h0
        · simp only [rankStats]
          linarith
        · have hv : v ∈ L.filterMap (·.price) := List.mem_filterMap.mpr ⟨l, hl, hp⟩
          have := minOr_le_of_mem (0:ℚ) hv
          simp only [rankStats]
          linarith
    have hden : 0 < (rankStats L).max_price - (rankStats L).min_price + eps := by
      simp only [rankStats]
      linarith
    have : 0 ≤ min ((pyOr l.price (rankStats L).max_price - (rankStats L).min_price) /
        ((rankStats L).max_price - (rankStats L).min_price + eps)) 1 :=
      le_min (div_nonneg hnum (le_of_lt hden)) zero_le_one
    linarith

lemma rawScore_bounds {L : List RListing} {l : RListing} (hl : l ∈ L)
    (hd : ∀ l' ∈ L, ∀ v, l'.discount_percentage = some v → 0 ≤ v)
    (hr : ∀ l' ∈ L, ∀ v, l'.rating = some v → 0 ≤ v) :
    0 ≤ rawScore (rankStats L) l ∧ rawScore (rankStats L) l ≤ 1 := by
  obtain ⟨d0, d1⟩ := normDiscount_bounds hl hd
  obtain ⟨p0, p1⟩ := normPrice_bounds (L := L) hl
  obtain ⟨r0, r1⟩ := normRating_bounds hl hr
  unfold rawScore
  constructor <;> nlinarith

/-! ## Concrete inputs for the ranking claims -/

def c1A : RListing := ⟨some 100, none, none, "Amazon"⟩

def c1B : RListing := ⟨some 0, none, none, "Flipkart"⟩

def c1W : RListing := ⟨some 60, some 5, some 3, "Amazon"⟩

/-- C1: the claim that `rank_listings` assigns each listing exactly the
composite `0.4*normDiscount + 0.4*normPrice + 0.2*normRating` with the
actual field values (`claimScore`) fails: a listing with price `0` is
substituted with the set's maximum price (Python truthiness), and the
assigned score is rounded to 4 digits. At `[c1A, c1B]` the code assigns
`c1B` the score `0` while the claimed formula gives `2/5`. -/
theorem C1_counterexample :
    ¬ ∀ s ∈ rank_listings [c1A, c1B], s.score = claimScore (rankStats [c1A, c1B]) s.listing := by
  intro hall
  have hst : rankStats [c1A, c1B] = ⟨0, 100, 100, 5⟩ := by
    simp [rankStats, c1A, c1B, minOr, maxOr]
  have hrawA : rawScore ⟨0, 100, 100, 5⟩ c1A = 2/50000000005 := by
    simp [rawScore, normDiscount, normPrice, normRating, pyOr, eps, c1A]
    norm_num
  have hrawB : rawScore ⟨0, 100, 100, 5⟩ c1B = 2/50000000005 := by
    simp [rawScore, normDiscount, normPrice, normRating, pyOr, eps, c1B]
    norm_num
  have hsA : (scoreListing ⟨0, 100, 100, 5⟩ c1A).score = 0 := by
    simp only [scoreListing, hrawA]
    norm_num [pyRound, roundHalfEven]
  have hsB : (scoreListing ⟨0, 100, 100, 5⟩ c1B).score = 0 := by
    simp only [scoreListing, hrawB]
    norm_num [pyRound, roundHalfEven]
  have hmem : scoreListing (rankStats [c1A, c1B]) c1B ∈ rank_listings [c1A, c1B] := by
    rw [rank_listings_pair, hst, if_pos (by rw [hsA, hsB])]
    simp
  have hc := hall _ hmem
  rw [hst] at hc
  have hclaim : claimScore ⟨0, 100, 100, 5⟩ c1B = 2/5 := by
    simp [claimScore, claimNormPrice, eps, c1B]
    norm_num
  rw [show (scoreListing (⟨0, 100, 100, 5⟩ : RankStats) c1B).listing = c1B from rfl, hclaim, hsB] at hc
  norm_num at hc

/-- C1 (amended): every score `rank_listings` assigns is the composite
formula with Python-falsy substitution (`0` treated like a missing
value), rounded half-even to 4 decimal digits. -/
theorem C1_amended_rounded_falsy : ∀ (L : List RListing), ∀ s ∈ rank_listings L,
    s.score = pyRound 4 (claimScoreFalsy (rankStats L) s.listing) := by
  intro L s hs
  obtain ⟨l, hl, rfl⟩ := mem_rank_listings hs
  simp only [scoreListing]
  congr 1

/-- C1 witness: the amended statement instantiated on a singleton. -/
theorem C1_witness :
    (scoreListing (rankStats [c1W]) c1W).score
      = pyRound 4 (claimScoreFalsy (rankStats [c1W]) (scoreListing (rankStats [c1W]) c1W).listing) :=
  C1_amended_rounded_falsy [c1W] _
    (by rw [rank_listings_single]; exact List.mem_singleton.mpr rfl)

/-- C6 (amended): the output of `rank_listings` is sorted by
non-increasing composite score and is a permutation of the scored input
listings; the code applies no further tie-break. -/
theorem C6_sorted_desc_perm : ∀ L : List RListing,
    (rank_listings L).Sorted scoreGE ∧ (rank_listings L).Perm (L.map (scoreListing (rankStats L))) := by
  intro L
  by_cases hL : L.isEmpty
  · have h0 : L = [] := List.isEmpty_iff.mp hL
    subst h0
    simp [rank_listings]
  · unfold rank_listings
    rw [if_neg hL]
    exact ⟨List.sorted_insertionSort scoreGE _, List.perm_insertionSort scoreGE _⟩

def c6Z : RListing := ⟨some 100, none, none, "Zeta"⟩

def c6A : RListing := ⟨some 100, none, none, "Alpha"⟩

/-- C6: the claimed tie-break (ascending price, then source name) does
not exist: two listings with equal scores and equal prices stay in input
order, here `"Zeta"` before `"Alpha"` although `"Alpha"` precedes
`"Zeta"` lexicographically. -/
theorem C6_counterexample :
    (rank_listings [c6Z, c6A]).map (fun s => s.listing.platformName) = ["Zeta", "Alpha"]
      ∧ (rank_listings [c6Z, c6A]).map Scored.score = [2/5, 2/5]
      ∧ (rank_listings [c6Z, c6A]).map (fun s => s.listing.price) = [some 100, some 100]
      ∧ strLt "Alpha" "Zeta" = true := by
  have hst : rankStats [c6Z, c6A] = ⟨100, 100, 100, 5⟩ := by
    simp [rankStats, c6Z, c6A, minOr, maxOr]
  have hrawZ : rawScore ⟨100, 100, 100, 5⟩ c6Z = 2/5 := by
    simp [rawScore, normDiscount, normPrice, normRating, pyOr, eps, c6Z]
    norm_num
  have hrawA : rawScore ⟨100, 100, 100, 5⟩ c6A = 2/5 := by
    simp [rawScore, normDiscount, normPrice, normRating, pyOr, eps, c6A]
    norm_num
  have hsZ : (scoreListing ⟨100, 100, 100, 5⟩ c6Z).score = 2/5 := by
    simp only [scoreListing, hrawZ]
    norm_num [pyRound, roundHalfEven]
  have hsA : (scoreListing ⟨100, 100, 100, 5⟩ c6A).score = 2/5 := by
    simp only [scoreListing, hrawA]
    norm_num [pyRound, roundHalfEven]
  have hout : rank_listings [c6Z, c6A]
      = [scoreListing ⟨100, 100, 100, 5⟩ c6Z, scoreListing ⟨100, 100, 100, 5⟩ c6A] := by
    rw [rank_listings_pair, hst, if_pos (by rw [hsZ, hsA])]
  refine ⟨?_, ?_, ?_, by decide⟩
  · rw [hout]
    simp [scoreListing, c6Z, c6A]
  · rw [hout]
    simp only [List.map_cons, List.map_nil]
    rw [hsZ, hsA]
  · rw [hout]
    simp [scoreListing, c6Z, c6A]

def c7P : RListing := ⟨some 7, none, none, "P"⟩

def c7Q : RListing := ⟨some 7, none, none, "Q"⟩

def c7W : RListing := ⟨some 50, some 5, some 3, "Flipkart"⟩

/-- C7: "no unresolved ties" fails: two listings with identical composite
scores are ordered purely by input position — the ranking between them is
not determined by any listing attribute. -/
theorem C7_counterexample :
    (rank_listings [c7P, c7Q]).map (fun s => s.listing.platformName) = ["P", "Q"]
      ∧ (rank_listings [c7Q, c7P]).map (fun s => s.listing.platformName) = ["Q", "P"]
      ∧ (rank_listings [c7P, c7Q]).map Scored.score = [2/5, 2/5] := by
  have hstPQ : rankStats [c7P, c7Q] = ⟨7, 7, 100, 5⟩ := by
    simp [rankStats, c7P, c7Q, minOr, maxOr]
  have hstQP : rankStats [c7Q, c7P] = ⟨7, 7, 100, 5⟩ := by
    simp [rankStats, c7P, c7Q, minOr, maxOr]
  have hrawP : rawScore ⟨7, 7, 100, 5⟩ c7P = 2/5 := by
    simp [rawScore, normDiscount, normPrice, normRating, pyOr, eps, c7P]
    norm_num
  have hrawQ : rawScore ⟨7, 7, 100, 5⟩ c7Q = 2/5 := by
    simp [rawScore, normDiscount, normPrice, normRating, pyOr, eps, c7Q]
    norm_num
  have hsP : (scoreListing ⟨7, 7, 100, 5⟩ c7P).score = 2/5 := by
    simp only [scoreListing, hrawP]
    norm_num [pyRound, roundHalfEven]
  have hsQ : (scoreListing ⟨7, 7, 100, 5⟩ c7Q).score = 2/5 := by
    simp only [scoreListing, hrawQ]
    norm_num [pyRound, roundHalfEven]
  have houtPQ : rank_listings [c7P, c7Q]
      = [scoreListing ⟨7, 7, 100, 5⟩ c7P, scoreListing ⟨7, 7, 100, 5⟩ c7Q] := by
    rw [rank_listings_pair, hstPQ, if_pos (by rw [hsP, hsQ])]
  have houtQP : rank_listings [c7Q, c7P]
      = [scoreListing ⟨7, 7, 100, 5⟩ c7Q, scoreListing ⟨7, 7, 100, 5⟩ c7P] := by
    rw [rank_listings_pair, hstQP, if_pos (by rw [hsP, hsQ])]
  refine ⟨?_, ?_, ?_⟩
  · rw [houtPQ]
    simp [scoreListing, c7P, c7Q]
  · rw [houtQP]
    simp [scoreListing, c7P, c7Q]
  · rw [houtPQ]
    simp only [List.map_cons, List.map_nil]
    rw [hsP, hsQ]

/-- C7 (amended): on non-negative inputs every composite score lies in
`[0, 1]`; ties, however, are resolved only by input position. -/
theorem C7_amended_scores_unit_interval : ∀ L : List RListing,
    (∀ l ∈ L, (∀ v, l.price = some v → 0 ≤ v)
      ∧ (∀ v, l.discount_percentage = some v → 0 ≤ v)
      ∧ (∀ v, l.rating = some v → 0 ≤ v)) →
    ∀ s ∈ rank_listings L, 0 ≤ s.score ∧ s.score ≤ 1 := by
  intro L hL s hs
  obtain ⟨l, hl, rfl⟩ := mem_rank_listings hs
  have hb := rawScore_bounds hl (fun l' h v e => (hL l' h).2.1 v e) (fun l' h v e => (hL l' h).2.2 v e)
  simp only [scoreListing]
  exact ⟨pyRound_nonneg hb.1, pyRound_le_one hb.2⟩

/-- C7 witness: the amended bound instantiated on a singleton. -/
theorem C7_witness :
    0 ≤ (scoreListing (rankStats [c7W]) c7W).score
      ∧ (scoreListing (rankStats [c7W]) c7W).score ≤ 1 :=
  C7_amended_scores_unit_interval [c7W]
    (by
      intro l hl
      rw [List.mem_singleton] at hl
      subst hl
      refine ⟨?_, ?_, ?_⟩ <;> intro v hv <;>
        (simp only [c7W, Option.some.injEq] at hv; rw [← hv]) <;> norm_num)
    _ (by rw [rank_listings_single]; exact List.mem_singleton.mpr rfl)

def c8l : RListing := ⟨some 100, some 10, some 4, "Amazon"⟩

/-- C8: a singleton listing with price 100, discount 10 and rating 4 gets
composite score exactly 1.0 (the raw composite is slightly below 1
because of ε, and line 58's `round(score, 4)` lifts it to 1.0). -/
theorem C8_singleton_perfect_score :
    (rank_listings [c8l]).map Scored.score = [1] := by
  rw [rank_listings_single]
  have hst : rankStats [c8l] = ⟨100, 100, 10, 4⟩ := by
    simp [rankStats, c8l, minOr, maxOr]
  have hraw : rawScore ⟨100, 100, 10, 4⟩ c8l =
      2/5 * (1000000000/1000000001) + 2/5 + 1/5 * (400000000/400000001) := by
    simp [rawScore, normDiscount, normPrice, normRating, pyOr, eps, c8l]
    norm_num
  rw [hst]
  simp only [List.map_cons, List.map_nil, scoreListing, hraw]
  norm_num [pyRound, roundHalfEven]

def c9Zero : RListing := ⟨some 0, none, none, "Amazon"⟩

def c9None : RListing := ⟨none, none, none, "Amazon"⟩

def c9B : RListing := ⟨some 100, none, none, "Flipkart"⟩

/-- C9: a price of exactly 0 is not treated identically to a missing
price: the 0 still enters the min/max price statistics (line 28 only
filters `None`), so the sibling listing `c9B` scores 0 next to the
0-priced listing but 2/5 next to the missing-priced one. -/
theorem C9_counterexample :
    (rank_listings [c9Zero, c9B]).map Scored.score = [0, 0]
      ∧ (rank_listings [c9None, c9B]).map Scored.score = [2/5, 2/5]
      ∧ (rank_listings [c9Zero, c9B]).map Scored.score
          ≠ (rank_listings [c9None, c9B]).map Scored.score := by
  have hst0 : rankStats [c9Zero, c9B] = ⟨0, 100, 100, 5⟩ := by
    simp [rankStats, c9Zero, c9B, minOr, maxOr]
  have hstN : rankStats [c9None, c9B] = ⟨100, 100, 100, 5⟩ := by
    simp [rankStats, c9None, c9B, minOr, maxOr]
  have hrawZ : rawScore ⟨0, 100, 100, 5⟩ c9Zero = 2/50000000005 := by
    simp [rawScore, normDiscount, normPrice, normRating, pyOr, eps, c9Zero]
    norm_num
  have hrawB0 : rawScore ⟨0, 100, 100, 5⟩ c9B = 2/50000000005 := by
    simp [rawScore, normDiscount, normPrice, normRating, pyOr, eps, c9B]
    norm_num
  have hrawN : rawScore ⟨100, 100, 100, 5⟩ c9None = 2/5 := by
    simp [rawScore, normDiscount, normPrice, normRating, pyOr, eps, c9None]
    norm_num
  have hrawBN : rawScore ⟨100, 100, 100, 5⟩ c9B = 2/5 := by
    simp [rawScore, normDiscount, normPrice, normRating, pyOr, eps, c9B]
    norm_num
  have hsZ : (scoreListing ⟨0, 100, 100, 5⟩ c9Zero).score = 0 := by
    simp only [scoreListing, hrawZ]
    norm_num [pyRound, roundHalfEven]
  have hsB0 : (scoreListing ⟨0, 100, 100, 5⟩ c9B).score = 0 := by
    simp only [scoreListing, hrawB0]
    norm_num [pyRound, roundHalfEven]
  have hsN : (scoreListing ⟨100, 100, 100, 5⟩ c9None).score = 2/5 := by
    simp only [scoreListing, hrawN]
    norm_num [pyRound, roundHalfEven]
  have hsBN : (scoreListing ⟨100, 100, 100, 5⟩ c9B).score = 2/5 := by
    simp only [scoreListing, hrawBN]
    norm_num [pyRound, roundHalfEven]
  have hout0 : rank_listings [c9Zero, c9B]
      = [scoreListing ⟨0, 100, 100, 5⟩ c9Zero, scoreListing ⟨0, 100, 100, 5⟩ c9B] := by
    rw [rank_listings_pair, hst0, if_pos (by rw [hsZ, hsB0])]
  have houtN : rank_listings [c9None, c9B]
      = [scoreListing ⟨100, 100, 100, 5⟩ c9None, scoreListing ⟨100, 100, 100, 5⟩ c9B] := by
    rw [rank_listings_pair, hstN, if_pos (by rw [hsN, hsBN])]
  have h1 : (rank_listings [c9Zero, c9B]).map Scored.score = [0, 0] := by
    rw [hout0]
    simp only [List.map_cons, List.map_nil]
    rw [hsZ, hsB0]
  have h2 : (rank_listings [c9None, c9B]).map Scored.score = [2/5, 2/5] := by
    rw [houtN]
    simp only [List.map_cons, List.map_nil]
    rw [hsN, hsBN]
  refine ⟨h1, h2, ?_⟩
  rw [h1, h2]
  simp only [ne_eq, List.cons.injEq]
  norm_num

/-- C9 (amended): with the normalization statistics held fixed, a zero
price, discount or rating is scored exactly like a missing one (a zero
price is substituted with the set's maximum price, hence the worst price
sub-score); only through the statistics can the two differ. -/
theorem C9_amended_zero_like_missing_pointwise : ∀ (s : RankStats) (d r : Option ℚ) (n : String),
    rawScore s ⟨some 0, d, r, n⟩ = rawScore s ⟨none, d, r, n⟩
      ∧ (∀ p rt : Option ℚ, rawScore s ⟨p, some 0, rt, n⟩ = rawScore s ⟨p, none, rt, n⟩)
      ∧ (∀ p dd : Option ℚ, rawScore s ⟨p, dd, some 0, n⟩ = rawScore s ⟨p, dd, none, n⟩)
      ∧ pyOr (some 0) s.max_price = s.max_price := by
  intro s d r n
  refine ⟨?_, ?_, ?_, ?_⟩ <;>
    simp [rawScore, normDiscount, normPrice, normRating, pyOr]

/-! ## Reconciliation lemmas -/

lemma resolvePlatform_found {cat : Catalog} {r : ScrapedRecord} {plat : DBPlatform}
    (hp : cat.platforms.find? (fun p => p.name == resolvePlatformName r) = some plat) :
    resolvePlatform cat r = (cat, plat, []) := by
  unfold resolvePlatform
  rw [hp]

lemma resolvePlatform_rows (cat : Catalog) (r : ScrapedRecord) :
    (resolvePlatform cat r).1.products = cat.products
      ∧ (resolvePlatform cat r).1.listings = cat.listings
      ∧ (resolvePlatform cat r).1.history = cat.history := by
  unfold resolvePlatform
  cases cat.platforms.find? (fun p => p.name == resolvePlatformName r) <;> simp

lemma reconcileStep_eq_update {cat : Catalog} {r : ScrapedRecord} {now : ℤ} {l0 : DBListing}
    (hl : findExistingListing (resolvePlatform cat r).1 (resolvePlatform cat r).2.1.id r = some l0) :
    reconcileStep cat r now
      = .ok (reconcileUpdate (resolvePlatform cat r).1 r now l0 (resolvePlatform cat r).2.2) := by
  simp only [reconcileStep, hl]

lemma reconcileStep_eq_create {cat : Catalog} {r : ScrapedRecord} {now : ℤ}
    (hl : findExistingListing (resolvePlatform cat r).1 (resolvePlatform cat r).2.1.id r = none) :
    reconcileStep cat r now
      = reconcileCreate (resolvePlatform cat r).1 r (resolvePlatform cat r).2.2 := by
  simp only [reconcileStep, hl]

lemma pyOr_idem (x : Option ℚ) (d : ℚ) : pyOr x (pyOr x d) = pyOr x d := by
  cases x with
  | none => rfl
  | some v => by_cases h : v = 0 <;> simp [pyOr, h]

lemma commonAssign_price (l : DBListing) (r : ScrapedRecord) (now : ℤ) :
    (commonAssign l r now).price = pyOr r.current_price l.price := rfl

lemma final_price_update (l0 : DBListing) (r : ScrapedRecord) (now : ℤ) :
    (commonAssign (updateBranch l0 r) r now).price = pyOr r.current_price 0 := by
  simp [commonAssign, updateBranch, pyOr_idem]

/-- C10 (amended): the sync never creates a listing (the create branch
raises `TypeError` in the `ProductListing` constructor before a listing
exists, so the listing count never grows), and every listing it
refreshes ends with `price = pyOr current_price 0`: a nonzero scraped
price, else `0` — line 147 zeroes the stored price before line 171's
`item.current_price or listing.price` can read the old value. -/
theorem C10_amended_refresh_price : ∀ (cat : Catalog) (r : ScrapedRecord) (now : ℤ),
    (reconcileRecord cat r now).listings.length = cat.listings.length
      ∧ ∀ l ∈ (reconcileRecord cat r now).listings, l ∉ cat.listings →
          l.price = pyOr r.current_price 0 := by
  intro cat r now
  have hLs := (resolvePlatform_rows cat r).2.1
  cases hfind : findExistingListing (resolvePlatform cat r).1 (resolvePlatform cat r).2.1.id r with
  | some l0 =>
    have hrec : reconcileRecord cat r now
        = (reconcileUpdate (resolvePlatform cat r).1 r now l0 (resolvePlatform cat r).2.2).final := by
      unfold reconcileRecord
      rw [reconcileStep_eq_update hfind]
    constructor
    · rw [hrec]
      simp only [reconcileUpdate, List.length_map]
      rw [hLs]
    · intro l hmem hnot
      rw [hrec] at hmem
      simp only [reconcileUpdate] at hmem
      rw [hLs] at hmem
      obtain ⟨x, hx, he⟩ := List.mem_map.mp hmem
      by_cases hid : (x.id == l0.id) = true
      · rw [if_pos hid] at he
        rw [← he]
        exact final_price_update l0 r now
      · rw [if_neg hid] at he
        exact absurd (he ▸ hx) hnot
  | none =>
    have hrec : reconcileRecord cat r now
        = { (resolvePlatform cat r).1 with
            products := (resolvePlatform cat r).1.products
              ++ [newProductFrom (resolvePlatform cat r).1.nextId r]
            nextId := (resolvePlatform cat r).1.nextId + 1 } := by
      unfold reconcileRecord
      rw [reconcileStep_eq_create hfind]
      simp [reconcileCreate]
    constructor
    · rw [hrec]
      exact congrArg List.length hLs
    · intro l hmem hnot
      rw [hrec] at hmem
      rw [show ({ (resolvePlatform cat r).1 with
            products := (resolvePlatform cat r).1.products
              ++ [newProductFrom (resolvePlatform cat r).1.nextId r]
            nextId := (resolvePlatform cat r).1.nextId + 1 } : Catalog).listings
          = cat.listings from hLs] at hmem
      exact absurd hmem hnot

def c10Cat : Catalog :=
  { platforms := [⟨1, "Amazon", "amazon.in"⟩]
    products := [⟨2, "Widget", none, none, none, none⟩]
    listings := [⟨3, 2, 1, some "u", some "ASIN1", 99, none, none, none, none, 0⟩]
    history := []
    nextId := 4 }

def c10Rec : ScrapedRecord :=
  { name := some "Widget", brand := none, category := none, description := none
    image_url := none, platform_product_id := some "ASIN1"
    platform_url := some "https://www.amazon.in/dp/ASIN1"
    current_price := none, original_price := none, discount_percentage := none
    rating := none, seller_rating := none, rating_count := none }

/-- C10 witness: the amended statement instantiated on `c10Cat`, at the
refreshed listing (stored price 99, scraped price missing). -/
theorem C10_witness :
    (commonAssign (updateBranch ⟨3, 2, 1, some "u", some "ASIN1", 99, none, none, none, none, 0⟩
        c10Rec) c10Rec 7).price = pyOr c10Rec.current_price 0 :=
  (C10_amended_refresh_price c10Cat c10Rec 7).2 _ (by decide) (by decide)

/-- C10: refreshing the listing (stored price 99) with a record whose
price is missing sets the stored price to 0 instead of keeping 99. -/
theorem C10_counterexample :
    c10Cat.listings.map DBListing.price = [99]
      ∧ (reconcileRecord c10Cat c10Rec 7).listings.map DBListing.price = [0] := by
  decide

/-- C4 (amended): reconciliation of one record is not atomic. On the
update path the listing refresh (line 177) and the history append (line
188) are committed separately, so a committed state with the refreshed
listing but no new `PriceHistory` point is visible mid-record. On the
create path the product is committed (line 141) and the `ProductListing`
constructor then raises `TypeError`, leaving a committed product with no
listing and no history point. -/
theorem C4_amended_not_atomic : ∀ (cat : Catalog) (r : ScrapedRecord) (now : ℤ)
    (plat : DBPlatform),
    cat.platforms.find? (fun p => p.name == resolvePlatformName r) = some plat →
    ((∀ l0 : DBListing, findExistingListing cat plat.id r = some l0 →
        (reconcileRecordCommits cat r now).length = 2
          ∧ ((reconcileRecordCommits cat r now).getD 0 cat).listings
              = cat.listings.map
                  (fun l => if l.id == l0.id then commonAssign (updateBranch l0 r) r now else l)
          ∧ ((reconcileRecordCommits cat r now).getD 0 cat).history.length = cat.history.length
          ∧ ((reconcileRecordCommits cat r now).getD 1 cat).history.length
              = cat.history.length + 1)
      ∧ (findExistingListing cat plat.id r = none →
          reconcileStep cat r now
              = .raised
                  [{ cat with
                      products := cat.products ++ [newProductFrom cat.nextId r]
                      nextId := cat.nextId + 1 }]
                  { cat with
                    products := cat.products ++ [newProductFrom cat.nextId r]
                    nextId := cat.nextId + 1 }
            ∧ (reconcileRecord cat r now).products.length = cat.products.length + 1
            ∧ (reconcileRecord cat r now).listings = cat.listings
            ∧ (reconcileRecord cat r now).history = cat.history)) := by
  intro cat r now plat hp
  have hrp := resolvePlatform_found hp
  constructor
  · intro l0 hl0
    have hfind : findExistingListing (resolvePlatform cat r).1 (resolvePlatform cat r).2.1.id r
        = some l0 := by
      rw [hrp]
      exact hl0
    have hcommits : reconcileRecordCommits cat r now
        = (reconcileUpdate cat r now l0 []).commits := by
      unfold reconcileRecordCommits
      rw [reconcileStep_eq_update hfind, hrp]
    rw [hcommits]
    refine ⟨?_, ?_, ?_, ?_⟩ <;> simp [reconcileUpdate, List.getD]
  · intro hnone
    have hfind : findExistingListing (resolvePlatform cat r).1 (resolvePlatform cat r).2.1.id r
        = none := by
      rw [hrp]
      exact hnone
    have hstep : reconcileStep cat r now = reconcileCreate cat r [] := by
      rw [reconcileStep_eq_create hfind, hrp]
    have hrec : reconcileRecord cat r now
        = { cat with
            products := cat.products ++ [newProductFrom cat.nextId r]
            nextId := cat.nextId + 1 } := by
      unfold reconcileRecord
      rw [hstep]
      simp [reconcileCreate]
    refine ⟨?_, ?_, ?_, ?_⟩
    · rw [hstep]
      simp [reconcileCreate]
    · rw [hrec]
      simp
    · rw [hrec]
    · rw [hrec]

def c4Cat : Catalog :=
  { platforms := [⟨1, "Amazon", "amazon.in"⟩]
    products := []
    listings := []
    history := []
    nextId := 2 }

def c4Rec : ScrapedRecord :=
  { name := some "Widget", brand := none, category := none, description := none
    image_url := none, platform_product_id := some "ASIN9"
    platform_url := some "https://www.amazon.in/dp/ASIN9"
    current_price := none, original_price := none, discount_percentage := none
    rating := none, seller_rating := none, rating_count := none }

/-- C4: reconciliation of one record is not all-or-none: for a new
record the only commit contains the product with neither listing nor
history, and that partial state is what stays visible after the
`ProductListing` constructor raises. -/
theorem C4_counterexample :
    (reconcileRecordCommits c4Cat c4Rec 1000).map
        (fun c => (c.products.length, c.listings.length, c.history.length))
      = [(1, 0, 0)]
      ∧ ((reconcileRecord c4Cat c4Rec 1000).products.length,
          (reconcileRecord c4Cat c4Rec 1000).listings.length,
          (reconcileRecord c4Cat c4Rec 1000).history.length) = (1, 0, 0)
      ∧ ¬ ∀ c ∈ reconcileRecordCommits c4Cat c4Rec 1000,
          (c.products.length = 0 ∧ c.listings.length = 0 ∧ c.history.length = 0)
            ∨ (1 ≤ c.products.length ∧ 1 ≤ c.listings.length ∧ 1 ≤ c.history.length) := by
  refine ⟨by decide, by decide, by decide⟩

def c4UL0 : DBListing := ⟨3, 2, 1, some "u", some "A7", 55, none, none, none, none, 0⟩

def c4UCat : Catalog :=
  { platforms := [⟨1, "Amazon", "amazon.in"⟩]
    products := [⟨2, "Gadget", none, none, none, none⟩]
    listings := [c4UL0]
    history := []
    nextId := 4 }

def c4URec : ScrapedRecord :=
  { name := some "Gadget", brand := none, category := none, description := none
    image_url := none, platform_product_id := some "A7"
    platform_url := some "https://www.amazon.in/dp/A7"
    current_price := some 60, original_price := none, discount_percentage := none
    rating := none, seller_rating := none, rating_count := none }

/-- C4 witness: the amended statement instantiated on both paths — an
update (listing committed before its history point) and a create (raise
after the product commit). -/
theorem C4_witness :
    (reconcileRecordCommits c4UCat c4URec 50).length = 2
      ∧ ((reconcileRecordCommits c4UCat c4URec 50).getD 0 c4UCat).listings
          = c4UCat.listings.map
              (fun l => if l.id == c4UL0.id then commonAssign (updateBranch c4UL0 c4URec) c4URec 50 else l)
      ∧ ((reconcileRecordCommits c4UCat c4URec 50).getD 0 c4UCat).history.length
          = c4UCat.history.length
      ∧ ((reconcileRecordCommits c4UCat c4URec 50).getD 1 c4UCat).history.length
          = c4UCat.history.length + 1
      ∧ reconcileStep c4Cat c4Rec 1000
          = .raised
              [{ c4Cat with
                  products := c4Cat.products ++ [newProductFrom c4Cat.nextId c4Rec]
                  nextId := c4Cat.nextId + 1 }]
              { c4Cat with
                products := c4Cat.products ++ [newProductFrom c4Cat.nextId c4Rec]
                nextId := c4Cat.nextId + 1 }
      ∧ (reconcileRecord c4Cat c4Rec 1000).products.length = c4Cat.products.length + 1
      ∧ (reconcileRecord c4Cat c4Rec 1000).listings = c4Cat.listings
      ∧ (reconcileRecord c4Cat c4Rec 1000).history = c4Cat.history := by
  have h1 := (C4_amended_not_atomic c4UCat c4URec 50 ⟨1, "Amazon", "amazon.in"⟩ (by decide)).1
    c4UL0 (by decide)
  have h2 := (C4_amended_not_atomic c4Cat c4Rec 1000 ⟨1, "Amazon", "amazon.in"⟩ (by decide)).2
    (by decide)
  exact ⟨h1.1, h1.2.1, h1.2.2.1, h1.2.2.2, h2.1, h2.2.1, h2.2.2.1, h2.2.2.2⟩

def c3Cat : Catalog :=
  { platforms := [⟨1, "Flipkart", "flipkart.com"⟩]
    products := []
    listings := []
    history := []
    nextId := 2 }

def c3Rec : ScrapedRecord :=
  { name := some "Phone", brand := none, category := none, description := none
    image_url := none, platform_product_id := some "FSN1"
    platform_url := some "https://www.flipkart.com/p/FSN1"
    current_price := some 10, original_price := none, discount_percentage := none
    rating := none, seller_rating := none, rating_count := none }

/-- C3: evaluating the reconciliation at a record whose natural key
matches no listing: the lookup finds nothing, the product is committed,
and the `ProductListing` constructor raises `TypeError`
(`availability_status`/`delivery_time` are not mapped attributes) — so
the first reconciliation creates no listing at all, and the claimed
create-then-update idempotence never gets to start. -/
theorem C3_create_path_raises :
    findExistingListing c3Cat 1 c3Rec = none
      ∧ reconcileStep c3Cat c3Rec 5
          = .raised
              [{ platforms := [⟨1, "Flipkart", "flipkart.com"⟩]
                 products := [⟨2, "Phone", none, none, none, none⟩]
                 listings := [], history := [], nextId := 3 }]
              { platforms := [⟨1, "Flipkart", "flipkart.com"⟩]
                products := [⟨2, "Phone", none, none, none, none⟩]
                listings := [], history := [], nextId := 3 }
      ∧ (reconcileRecord c3Cat c3Rec 5).listings.length = 0
      ∧ countKey (reconcileRecord c3Cat c3Rec 5) 1 c3Rec.platform_product_id = 0
      ∧ (reconcileRecord c3Cat c3Rec 5).products.length = 1 := by
  refine ⟨by decide, by decide, by decide, by decide, by decide⟩

/-! ## Freshness lemmas -/

lemma tallyStep_fst (amz fk : Option ℕ) : ∀ (ls : List DBListing) (acc : ℕ × ℕ),
    (ls.foldl (tallyStep amz fk) acc).1 = acc.1 + ls.countP (matchesPlat amz) := by
  intro ls
  induction ls with
  | nil => simp
  | cons l t ih =>
    intro acc
    simp only [List.foldl_cons, List.countP_cons]
    by_cases hm : matchesPlat amz l = true
    · rw [show tallyStep amz fk acc l = (acc.1 + 1, acc.2) from by simp [tallyStep, hm]]
      rw [ih]
      simp [hm]
      omega
    · by_cases hf : matchesPlat fk l = true
      · rw [show tallyStep amz fk acc l = (acc.1, acc.2 + 1) from by simp [tallyStep, hm, hf]]
        rw [ih]
        simp [hm]
      · rw [show tallyStep amz fk acc l = acc from by simp [tallyStep, hm, hf]]
        rw [ih]
        simp [hm]

lemma tallyStep_snd (amz fk : Option ℕ) : ∀ (ls : List DBListing) (acc : ℕ × ℕ),
    (ls.foldl (tallyStep amz fk) acc).2
      = acc.2 + ls.countP (fun l => !matchesPlat amz l && matchesPlat fk l) := by
  intro ls
  induction ls with
  | nil => simp
  | cons l t ih =>
    intro acc
    simp only [List.foldl_cons, List.countP_cons]
    by_cases hm : matchesPlat amz l = true
    · rw [show tallyStep amz fk acc l = (acc.1 + 1, acc.2) from by simp [tallyStep, hm]]
      rw [ih]
      simp [hm]
    · by_cases hf : matchesPlat fk l = true
      · rw [show tallyStep amz fk acc l = (acc.1, acc.2 + 1) from by simp [tallyStep, hm, hf]]
        rw [ih]
        simp [hm, hf]
        omega
      · rw [show tallyStep amz fk acc l = acc from by simp [tallyStep, hm, hf]]
        rw [ih]
        simp [hm, hf]

lemma countP_pos_iff (p : DBListing → Bool) (ls : List DBListing) :
    ¬ ls.countP p = 0 ↔ ∃ l ∈ ls, p l = true := by
  rw [List.countP_eq_zero]
  push_neg
  simp

lemma mem_freshListings {cat : Catalog} {q : String} {now : ℤ} {l : DBListing} :
    l ∈ freshListings cat q now ↔
      ∃ p ∈ existingProducts cat q, l ∈ cat.listings
        ∧ l.product_id = p.id ∧ now - freshnessWindow ≤ l.last_scraped_at := by
  unfold freshListings freshListingsOf
  simp only [List.mem_flatten, List.mem_map]
  constructor
  · rintro ⟨ls, ⟨p, hp, rfl⟩, hl⟩
    have := List.mem_filter.mp hl
    refine ⟨p, hp, this.1, ?_, ?_⟩
    · have h2 := this.2
      simp only [Bool.and_eq_true, beq_iff_eq, decide_eq_true_eq] at h2
      exact h2.1
    · have h2 := this.2
      simp only [Bool.and_eq_true, beq_iff_eq, decide_eq_true_eq] at h2
      exact h2.2
  · rintro ⟨p, hp, hmem, hpid, hts⟩
    refine ⟨_, ⟨p, hp, rfl⟩, List.mem_filter.mpr ⟨hmem, ?_⟩⟩
    simp only [Bool.and_eq_true, beq_iff_eq, decide_eq_true_eq]
    exact ⟨hpid, hts⟩

/-- C2: per-source freshness. With both platform rows present (distinct
ids), a platform needs no fetch iff some product matching the query has a
listing of that platform scraped within the 24h window (so `window - 1s`
ago is fresh, `window + 1s` ago is stale); and when a platform is fresh
the sync result does not depend on that platform's scraper at all — the
fetch is dispatched only for stale platforms. -/
theorem C2_freshness_per_source : ∀ (cat : Catalog) (q : String) (now : ℤ) (aid fid : ℕ),
    platformIdByName cat "Amazon" = some aid →
    platformIdByName cat "Flipkart" = some fid →
    aid ≠ fid →
    (needsAmazon cat q now = false ↔
        ∃ p ∈ existingProducts cat q, ∃ l ∈ cat.listings,
          l.product_id = p.id ∧ l.platform_id = aid
            ∧ now - freshnessWindow ≤ l.last_scraped_at)
      ∧ (needsFlipkart cat q now = false ↔
        ∃ p ∈ existingProducts cat q, ∃ l ∈ cat.listings,
          l.product_id = p.id ∧ l.platform_id = fid
            ∧ now - freshnessWindow ≤ l.last_scraped_at)
      ∧ (needsAmazon cat q now = false →
          ∀ aO aO' fkO, searchAndSync cat q now aO fkO = searchAndSync cat q now aO' fkO)
      ∧ (needsFlipkart cat q now = false →
          ∀ aO fkO fkO', searchAndSync cat q now aO fkO = searchAndSync cat q now aO fkO') := by
  intro cat q now aid fid ha hf hne
  have hfst : (freshCounts cat q now).1
      = (freshListings cat q now).countP (matchesPlat (platformIdByName cat "Amazon")) := by
    unfold freshCounts
    rw [tallyStep_fst]
    simp
  have hsnd : (freshCounts cat q now).2
      = (freshListings cat q now).countP
          (fun l => !matchesPlat (platformIdByName cat "Amazon") l
            && matchesPlat (platformIdByName cat "Flipkart") l) := by
    unfold freshCounts
    rw [tallyStep_snd]
    simp
  have hpred : (fun l : DBListing => !matchesPlat (some aid) l && matchesPlat (some fid) l)
      = matchesPlat (some fid) := by
    funext l
    simp only [matchesPlat]
    by_cases hpf : l.platform_id = fid
    · simp [hpf, Ne.symm hne]
    · simp [hpf]
  refine ⟨?_, ?_, ?_, ?_⟩
  · unfold needsAmazon
    rw [hfst, ha]
    constructor
    · intro h
      rw [beq_eq_false_iff_ne] at h
      obtain ⟨l, hl, hpl⟩ := (countP_pos_iff _ _).mp h
      obtain ⟨p, hp, hmem, hpid, hts⟩ := mem_freshListings.mp hl
      exact ⟨p, hp, l, hmem, hpid, by simpa [matchesPlat] using hpl, hts⟩
    · rintro ⟨p, hp, l, hmem, hpid, hplat, hts⟩
      rw [beq_eq_false_iff_ne]
      exact (countP_pos_iff _ _).mpr
        ⟨l, mem_freshListings.mpr ⟨p, hp, hmem, hpid, hts⟩, by simp [matchesPlat, hplat]⟩
  · unfold needsFlipkart
    rw [hsnd, ha, hf, hpred]
    constructor
    · intro h
      rw [beq_eq_false_iff_ne] at h
      obtain ⟨l, hl, hpl⟩ := (countP_pos_iff _ _).mp h
      obtain ⟨p, hp, hmem, hpid, hts⟩ := mem_freshListings.mp hl
      exact ⟨p, hp, l, hmem, hpid, by simpa [matchesPlat] using hpl, hts⟩
    · rintro ⟨p, hp, l, hmem, hpid, hplat, hts⟩
      rw [beq_eq_false_iff_ne]
      exact (countP_pos_iff _ _).mpr
        ⟨l, mem_freshListings.mpr ⟨p, hp, hmem, hpid, hts⟩, by simp [matchesPlat, hplat]⟩
  · intro h aO aO' fkO
    simp [searchAndSync, h]
  · intro h aO fkO fkO'
    simp [searchAndSync, h]

def c2Cat : Catalog :=
  { platforms := [⟨1, "Amazon", "amazon.in"⟩, ⟨2, "Flipkart", "flipkart.com"⟩]
    products := [⟨3, "Cool Phone", none, none, none, none⟩]
    listings :=
      [⟨4, 3, 1, some "u", some "A1", 10, none, none, none, none, -86399⟩,
       ⟨5, 3, 2, some "u2", some "F1", 12, none, none, none, none, -86401⟩]
    history := []
    nextId := 6 }

/-- C2 witness: at `now = 0` the Amazon listing scraped `window - 1s` ago
makes Amazon fresh; the Flipkart listing scraped `window + 1s` ago leaves
Flipkart stale. -/
theorem C2_witness :
    needsAmazon c2Cat "phone" 0 = false ∧ needsFlipkart c2Cat "phone" 0 = true := by
  have h := C2_freshness_per_source c2Cat "phone" 0 1 2 (by decide) (by decide) (by decide)
  refine ⟨?_, by decide⟩
  exact h.1.mpr
    ⟨⟨3, "Cool Phone", none, none, none, none⟩, by decide,
     ⟨4, 3, 1, some "u", some "A1", 10, none, none, none, none, -86399⟩, by decide,
     by decide, by decide, by decide⟩

/-- C5: when every dispatched scrape contributes no records (an empty
result or a caught exception alike), the sync returns the cached products
for the query when any exist and the empty list otherwise, leaves the
catalog untouched, and raises nothing (the scraper failures were already
caught at lines 80/89). -/
theorem C5_all_scrapes_empty_fallback : ∀ (cat : Catalog) (q : String) (now : ℤ)
    (aO fO : Except Unit (List ScrapedRecord)),
    (needsAmazon cat q now = true ∨ needsFlipkart cat q now = true) →
    scrapeYield aO = [] → scrapeYield fO = [] →
    searchAndSync cat q now aO fO
      = .ok (cat, if (existingProducts cat q).isEmpty then [] else existingProducts cat q) := by
  intro cat q now aO fO hneed ha hf
  have hcond : ¬(¬needsAmazon cat q now = true ∧ ¬needsFlipkart cat q now = true) := by
    tauto
  have hscraped : (if needsAmazon cat q now then scrapeYield aO else [])
      ++ (if needsFlipkart cat q now then scrapeYield fO else []) = [] := by
    split_ifs <;> simp [ha, hf]
  unfold searchAndSync
  rw [if_neg hcond]
  simp only [hscraped, List.isEmpty_nil, if_pos]
  by_cases he : (existingProducts cat q).isEmpty
  · simp [he]
  · simp [he]

def c5Cat : Catalog :=
  { platforms := []
    products := [⟨1, "Stale Phone", none, none, none, none⟩]
    listings := []
    history := []
    nextId := 2 }

/-- C5 witness: both scrapers raise; the cached product is returned and
the catalog is unchanged. -/
theorem C5_witness :
    searchAndSync c5Cat "phone" 0 (Except.error ()) (Except.error ())
      = .ok (c5Cat, if (existingProducts c5Cat "phone").isEmpty then []
             else existingProducts c5Cat "phone") :=
  C5_all_scrapes_empty_fallback c5Cat "phone" 0 (Except.error ()) (Except.error ())
    (Or.inl (by decide)) rfl rfl
